import Mathlib

/-!
Shallow embedding of the epub-translator program (Go), second variant:
`translateNode`, `translateHTML`, `processFile`.  External collaborators
(HTTP transport, goquery tree, zip archive) are modelled as explicit inputs;
the control flow, constants and strings are translated from the source.
-/

namespace EpubTranslator

/-- Outcome of one `client.Do` call together with how the body would parse:
`transportError` models `err != nil` (resp is nil); `response status choices`
models a delivered HTTP response whose body unmarshals into `OpenAIResponse`
giving `some` list of `choices[i].message.content` strings, or `none` when
`json.Unmarshal` fails.  -/
inductive AttemptResult
  | transportError
  | response (status : Nat) (choices : Option (List String))
deriving Repr, DecidableEq

/-- The environment one `translateNode` call runs against: `reqOk` is whether
`http.NewRequest("POST", url, ...)` succeeds (deterministic in the fixed url),
and `attempt i` is the result of the i-th request actually sent. -/
structure ServiceModel where
  reqOk : Bool
  attempt : Nat → AttemptResult

/-- unicode.IsSpace restricted to the Latin-1 range Go special-cases:
tab, newline, vertical tab, form feed, carriage return, space, NEL, NBSP. -/
def goIsSpace (c : Char) : Bool :=
  c = ' ' || c = Char.ofNat 9 || c = Char.ofNat 10 || c = Char.ofNat 11 ||
    c = Char.ofNat 12 || c = Char.ofNat 13 || c = Char.ofNat 133 ||
    c = Char.ofNat 160

/-- strings.TrimSpace: drop leading and trailing white space. -/
def trimSpace (s : String) : String :=
  String.mk (((s.data.dropWhile goIsSpace).reverse.dropWhile goIsSpace).reverse)

/-- strings.ToLower on one character, for the ASCII range that file
extensions use. -/
def goToLowerChar (c : Char) : Char :=
  if 65 ≤ c.toNat ∧ c.toNat ≤ 90 then Char.ofNat (c.toNat + 32) else c

/-- strings.ToLower. -/
def goToLower (s : String) : String := String.mk (s.data.map goToLowerChar)

/-- Success classification of one attempt, from the source lines
`if err == nil && resp.StatusCode == http.StatusOK { ... if err := json.Unmarshal(...); err == nil && len(openAIResp.Choices) > 0 { return strings.TrimSpace(openAIResp.Choices[0].Message.Content) } }`:
`some t` iff transport succeeded, status is 200, the body parsed and the
choices list is non-empty; `t` is the first choice content trimmed. -/
def trimmedFirstChoice? : AttemptResult → Option String
  | AttemptResult.transportError => none
  | AttemptResult.response s choices =>
    if s = 200 then
      match choices with
      | some (c :: _) => some (trimSpace c)
      | _ => none
    else none

/-- From `if resp != nil && resp.StatusCode == 429`: true iff a response was
delivered and its status is 429. -/
def isRateLimited : AttemptResult → Bool
  | AttemptResult.transportError => false
  | AttemptResult.response s _ => s == 429

/-- maxRetries := 5 in translateNode. -/
def maxRetries : Nat := 5

/-- retryDelay := 5 * time.Second, counted here in seconds. -/
def baseRetryDelaySeconds : Nat := 5

/-- The literal appended on exhaustion:
`htmlContent + " <span style='color: gray; font-size: 0.8em;'>(⚠️ Translation failed)</span>"`. -/
def failureMarker : String :=
  " <span style=\x27color: gray; font-size: 0.8em;\x27>(⚠️ Translation failed)</span>"

/-- The fmt.Sprintf system prompt of translateNode. -/
def systemPrompt (targetLang : String) : String :=
  "You are a professional translator. Translate to " ++ targetLang ++
    ". Keep all HTML tags exactly as they are. Output ONLY the translated content."

/-- encoding/json escaping of one character (the escapes Go applies to the
characters that can occur here: quote, backslash, control whitespace, and the
HTML-escaped `<`, `>`, `&`). -/
def goJsonEscapeChar (c : Char) : String :=
  if c = '"' then "\\\""
  else if c = '\\' then "\\\\"
  else if c = Char.ofNat 10 then "\\n"
  else if c = Char.ofNat 13 then "\\r"
  else if c = Char.ofNat 9 then "\\t"
  else if c = '<' then "\\u003c"
  else if c = '>' then "\\u003e"
  else if c = '&' then "\\u0026"
  else String.singleton c

/-- escape every character of a string. -/
def goJsonEscape (s : String) : String :=
  String.join (s.data.map goJsonEscapeChar)

/-- a JSON string literal. -/
def jsonString (s : String) : String := "\"" ++ goJsonEscape s ++ "\""

/-- json.Marshal of the payload map built before the retry loop.  Go sorts map
keys, so `messages` precedes `model` and `content` precedes `role`. -/
def encodeRequestBody (model targetLang htmlContent : String) : String :=
  "\x7b\"messages\":[\x7b\"content\":" ++ jsonString (systemPrompt targetLang) ++
    ",\"role\":\"system\"\x7d,\x7b\"content\":" ++ jsonString htmlContent ++
    ",\"role\":\"user\"\x7d],\"model\":" ++ jsonString model ++ "\x7d"

/-- Observable trace of one translateNode call: the returned string, the number
of `client.Do` calls made, the `time.Sleep(retryDelay)` durations in order, and
the request body sent on each attempt. -/
structure RunLog where
  result : String
  attempts : Nat
  waits : List Nat
  sentBodies : List String
deriving Repr, DecidableEq

/-- The retry loop `for i := 0; i <= maxRetries; i++` of translateNode, with
`remaining = maxRetries - i` as the recursion measure.  On success the trimmed
first choice is returned at once; otherwise, while iterations remain, the loop
sleeps the current delay and then multiplies it by 3 after a 429 response and
by 2 after every other failure; when none remain it returns the original
content with the failure marker appended. -/
def runAttempts (attemptFn : Nat → AttemptResult) (htmlContent body : String) :
    Nat → Nat → Nat → RunLog
  | i, _, 0 =>
    match trimmedFirstChoice? (attemptFn i) with
    | some t => { result := t, attempts := 1, waits := [], sentBodies := [body] }
    | none =>
      { result := htmlContent ++ failureMarker, attempts := 1, waits := [],
        sentBodies := [body] }
  | i, delay, remaining + 1 =>
    match trimmedFirstChoice? (attemptFn i) with
    | some t => { result := t, attempts := 1, waits := [], sentBodies := [body] }
    | none =>
      let mult := if isRateLimited (attemptFn i) then 3 else 2
      let rest := runAttempts attemptFn htmlContent body (i + 1) (delay * mult) remaining
      { result := rest.result, attempts := rest.attempts + 1,
        waits := delay :: rest.waits, sentBodies := body :: rest.sentBodies }

/-- translateNode of the source: serializes the body once, then runs the retry
loop; when `http.NewRequest` fails (invalid url) the first iteration returns
the original content unmarked, with no request sent and no sleep. -/
def translateNode (svc : ServiceModel) (htmlContent model targetLang : String) :
    RunLog :=
  let body := encodeRequestBody model targetLang htmlContent
  if svc.reqOk then
    runAttempts svc.attempt htmlContent body 0 baseRetryDelaySeconds maxRetries
  else
    { result := htmlContent, attempts := 0, waits := [], sentBodies := [] }

/-- One element matched by `doc.Find("p, h1, h2, h3, h4, h5, h6, li, span")`:
`text` is `s.Text()`, `inner` is the inner markup `s.Html()` would return, and
`htmlErr` is whether `s.Html()` instead returns an error. -/
structure GoqueryUnit where
  text : String
  inner : String
  htmlErr : Bool
deriving Repr, DecidableEq

/-- The body of `selection.Each` in translateHTML: a unit whose trimmed text is
empty is skipped untouched and never sent; an `s.Html()` error also skips;
otherwise the unit's inner markup is replaced by translateNode's return value.
Yields the element's inner markup afterwards and the number of requests
(`client.Do` calls) made for it. -/
def processUnit (svc : ServiceModel) (model targetLang : String)
    (u : GoqueryUnit) : String × Nat :=
  if trimSpace u.text = "" then (u.inner, 0)
  else if u.htmlErr then (u.inner, 0)
  else
    let log := translateNode svc u.inner model targetLang
    (log.result, log.attempts)

/-- The goquery/io collaborators of one translateHTML call: `parsed` is the
units `doc.Find` yields when `NewDocumentFromReader` succeeds (`none` models a
parse error), `serializeOk` whether `doc.Html()` succeeds, `writeOk` whether
`io.WriteString` succeeds. -/
structure DocModel where
  parsed : Option (List GoqueryUnit)
  serializeOk : Bool
  writeOk : Bool

/-- The three error exits of translateHTML. -/
inductive TranslateError
  | parseError
  | serializeError
  | writeError
deriving Repr, DecidableEq

/-- translateHTML of the source: parse, process every unit in order, then
serialize and write; its value on success is each unit's final inner markup. -/
def translateHTML (svc : ServiceModel) (model targetLang : String)
    (doc : DocModel) : Except TranslateError (List String) :=
  match doc.parsed with
  | none => Except.error TranslateError.parseError
  | some units =>
    let results := units.map (fun u => (processUnit svc model targetLang u).1)
    if doc.serializeOk then
      if doc.writeOk then Except.ok results
      else Except.error TranslateError.writeError
    else Except.error TranslateError.serializeError

/-- filepath.Ext: scan the name from its end, stopping at a path separator;
the accumulator carries the characters already passed, in original order. -/
def extRevScan : List Char → List Char → String
  | [], _ => ""
  | c :: rest, acc =>
    if c = '/' then ""
    else if c = '.' then String.mk (c :: acc)
    else extRevScan rest (c :: acc)

/-- filepath.Ext(name): the suffix from the final dot of the last path
element, or `""` when there is none. -/
def fileExt (name : String) : String := extRevScan name.data.reverse []

/-- The dispatch test of processFile and processEpub:
`ext := strings.ToLower(filepath.Ext(file.Name)); ext == ".xhtml" || ext == ".html"`. -/
def isMarkupFile (name : String) : Bool :=
  let ext := goToLower (fileExt name)
  ext == ".xhtml" || ext == ".html"

/-- One archive entry plus its zip collaborators: `openOk` is whether
`file.Open()` succeeds and `createOk` whether `writer.Create` succeeds. -/
structure ZipEntry where
  name : String
  bytes : List Nat
  openOk : Bool
  createOk : Bool

/-- The error exits of processFile. -/
inductive FileError
  | openError
  | createError
  | translateFailed (e : TranslateError)
  | copyError
deriving Repr, DecidableEq

/-- What processFile wrote for the entry: a byte-for-byte copy, or the
translated document. -/
inductive FileOutput
  | copied (bytes : List Nat)
  | translatedDoc (results : List String)
deriving Repr, DecidableEq

/-- processFile of the source: open the entry, create its output slot, then
hand markup files to translateHTML and copy every other entry verbatim
(`copyOk` models the io.Copy collaborator). -/
def processFile (svc : ServiceModel) (model targetLang : String)
    (doc : DocModel) (entry : ZipEntry) (copyOk : Bool) :
    Except FileError FileOutput :=
  if entry.openOk = false then Except.error FileError.openError
  else if entry.createOk = false then Except.error FileError.createError
  else if isMarkupFile entry.name then
    match translateHTML svc model targetLang doc with
    | Except.ok rs => Except.ok (FileOutput.translatedDoc rs)
    | Except.error e => Except.error (FileError.translateFailed e)
  else if copyOk then Except.ok (FileOutput.copied entry.bytes)
  else Except.error FileError.copyError

/-- a service whose transport fails on every attempt. -/
def alwaysNetFail : ServiceModel := ⟨true, fun _ => AttemptResult.transportError⟩

/-- a service answering HTTP 500 on every attempt. -/
def alwaysFail500 : ServiceModel :=
  ⟨true, fun _ => AttemptResult.response 500 none⟩

/-- a service answering HTTP 429 on the first attempt and HTTP 500 forever
after. -/
def svc429ThenFail : ServiceModel :=
  ⟨true, fun i => if i = 0 then AttemptResult.response 429 none
    else AttemptResult.response 500 none⟩

/-- an environment where `http.NewRequest` itself fails (invalid url). -/
def badRequestSvc : ServiceModel := ⟨false, fun _ => AttemptResult.transportError⟩

/-- a service that succeeds at once with whitespace-only choice content. -/
def whitespaceSuccessSvc : ServiceModel :=
  ⟨true, fun _ => AttemptResult.response 200 (some ["   "])⟩

/-- a service answering HTTP 500 on the first attempt, then succeeding. -/
def failThenSuccessSvc : ServiceModel :=
  ⟨true, fun i => if i = 0 then AttemptResult.response 500 none
    else AttemptResult.response 200 (some [" Hallo "])⟩

/-- a one-unit document whose goquery collaborators all succeed. -/
def sampleDoc : DocModel := ⟨some [⟨"Hello", "Hello", false⟩], true, true⟩

theorem runAttempts_success (f : Nat → AttemptResult) (html body : String)
    (i d n : Nat) (t : String) (h : trimmedFirstChoice? (f i) = some t) :
    runAttempts f html body i d n =
      { result := t, attempts := 1, waits := [], sentBodies := [body] } := by
  cases n <;> simp [runAttempts, h]

theorem runAttempts_zero_fail (f : Nat → AttemptResult) (html body : String)
    (i d : Nat) (h : trimmedFirstChoice? (f i) = none) :
    runAttempts f html body i d 0 =
      { result := html ++ failureMarker, attempts := 1, waits := [],
        sentBodies := [body] } := by
  simp [runAttempts, h]

theorem runAttempts_succ_fail (f : Nat → AttemptResult) (html body : String)
    (i d n : Nat) (h : trimmedFirstChoice? (f i) = none) :
    runAttempts f html body i d (n + 1) =
      { result := (runAttempts f html body (i + 1)
          (d * (if isRateLimited (f i) then 3 else 2)) n).result,
        attempts := (runAttempts f html body (i + 1)
          (d * (if isRateLimited (f i) then 3 else 2)) n).attempts + 1,
        waits := d :: (runAttempts f html body (i + 1)
          (d * (if isRateLimited (f i) then 3 else 2)) n).waits,
        sentBodies := body :: (runAttempts f html body (i + 1)
          (d * (if isRateLimited (f i) then 3 else 2)) n).sentBodies } := by
  simp [runAttempts, h]

theorem runAttempts_allFail (f : Nat → AttemptResult) (html body : String)
    (hfail : ∀ j, trimmedFirstChoice? (f j) = none) :
    ∀ n i d, (runAttempts f html body i d n).result = html ++ failureMarker ∧
      (runAttempts f html body i d n).attempts = n + 1 := by
  intro n
  induction n with
  | zero => intro i d; rw [runAttempts_zero_fail f html body i d (hfail i)]; exact ⟨rfl, rfl⟩
  | succ m ih =>
    intro i d
    rw [runAttempts_succ_fail f html body i d m (hfail i)]
    have h := ih (i + 1) (d * (if isRateLimited (f i) then 3 else 2))
    exact ⟨h.1, congrArg (· + 1) h.2⟩

theorem runAttempts_allFail_waits (f : Nat → AttemptResult) (html body : String)
    (hfail : ∀ j, trimmedFirstChoice? (f j) = none)
    (hnr : ∀ j, isRateLimited (f j) = false) :
    ∀ n i d, (runAttempts f html body i d n).waits =
      (List.range n).map (fun k => d * 2 ^ k) := by
  intro n
  induction n with
  | zero => intro i d; rw [runAttempts_zero_fail f html body i d (hfail i)]; rfl
  | succ m ih =>
    intro i d
    rw [runAttempts_succ_fail f html body i d m (hfail i), hnr i]
    show d :: (runAttempts f html body (i + 1) (d * 2) m).waits =
      (List.range (m + 1)).map (fun k => d * 2 ^ k)
    rw [ih (i + 1) (d * 2), List.range_succ_eq_map, List.map_cons, List.map_map]
    congr 1
    · simp
    · refine List.map_congr_left ?_
      intro a _
      simp only [Function.comp_apply, Nat.succ_eq_add_one, pow_succ]
      ring

theorem runAttempts_firstSuccess (f : Nat → AttemptResult) (html body t : String) :
    ∀ k i d n, k ≤ n → (∀ j, j < k → trimmedFirstChoice? (f (i + j)) = none) →
      trimmedFirstChoice? (f (i + k)) = some t →
      (runAttempts f html body i d n).result = t ∧
      (runAttempts f html body i d n).attempts = k + 1 := by
  intro k
  induction k with
  | zero =>
    intro i d n _ _ hsucc
    rw [runAttempts_success f html body i d n t (by simpa using hsucc)]
    exact ⟨rfl, rfl⟩
  | succ m ih =>
    intro i d n hkn hfail hsucc
    obtain ⟨n', rfl⟩ : ∃ n', n = n' + 1 := ⟨n - 1, by omega⟩
    rw [runAttempts_succ_fail f html body i d n' (by simpa using hfail 0 (by omega))]
    have hshift : ∀ j, j < m → trimmedFirstChoice? (f (i + 1 + j)) = none := by
      intro j hj
      have he : i + 1 + j = i + (j + 1) := by omega
      rw [he]; exact hfail (j + 1) (by omega)
    have hs : trimmedFirstChoice? (f (i + 1 + m)) = some t := by
      have he : i + 1 + m = i + (m + 1) := by omega
      rw [he]; exact hsucc
    have h := ih (i + 1) (d * (if isRateLimited (f i) then 3 else 2)) n'
      (by omega) hshift hs
    exact ⟨h.1, congrArg (· + 1) h.2⟩

theorem runAttempts_result_cases (f : Nat → AttemptResult) (html body : String) :
    ∀ n i d, (runAttempts f html body i d n).result = html ++ failureMarker ∨
      ∃ j t, trimmedFirstChoice? (f j) = some t ∧
        (runAttempts f html body i d n).result = t := by
  intro n
  induction n with
  | zero =>
    intro i d
    cases h : trimmedFirstChoice? (f i) with
    | none => left; rw [runAttempts_zero_fail f html body i d h]
    | some t =>
      right
      exact ⟨i, t, h, by rw [runAttempts_success f html body i d 0 t h]⟩
  | succ m ih =>
    intro i d
    cases h : trimmedFirstChoice? (f i) with
    | some t =>
      right
      exact ⟨i, t, h, by rw [runAttempts_success f html body i d (m + 1) t h]⟩
    | none =>
      rw [runAttempts_succ_fail f html body i d m h]
      exact ih (i + 1) (d * (if isRateLimited (f i) then 3 else 2))

theorem runAttempts_sentBodies (f : Nat → AttemptResult) (html body : String) :
    ∀ n i d, (runAttempts f html body i d n).sentBodies =
      List.replicate (runAttempts f html body i d n).attempts body := by
  intro n
  induction n with
  | zero =>
    intro i d
    cases h : trimmedFirstChoice? (f i) with
    | none => rw [runAttempts_zero_fail f html body i d h]; rfl
    | some t => rw [runAttempts_success f html body i d 0 t h]; rfl
  | succ m ih =>
    intro i d
    cases h : trimmedFirstChoice? (f i) with
    | some t => rw [runAttempts_success f html body i d (m + 1) t h]; rfl
    | none =>
      rw [runAttempts_succ_fail f html body i d m h]
      show body :: (runAttempts f html body (i + 1)
          (d * (if isRateLimited (f i) then 3 else 2)) m).sentBodies =
        List.replicate ((runAttempts f html body (i + 1)
          (d * (if isRateLimited (f i) then 3 else 2)) m).attempts + 1) body
      rw [ih (i + 1) (d * (if isRateLimited (f i) then 3 else 2)),
        List.replicate_succ]

theorem runAttempts_congr (f g : Nat → AttemptResult) (html body : String)
    (hc : ∀ j, trimmedFirstChoice? (f j) = trimmedFirstChoice? (g j))
    (hr : ∀ j, isRateLimited (f j) = isRateLimited (g j)) :
    ∀ n i d, runAttempts f html body i d n = runAttempts g html body i d n := by
  intro n
  induction n with
  | zero =>
    intro i d
    cases h : trimmedFirstChoice? (g i) with
    | none =>
      rw [runAttempts_zero_fail f html body i d ((hc i).trans h),
        runAttempts_zero_fail g html body i d h]
    | some t =>
      rw [runAttempts_success f html body i d 0 t ((hc i).trans h),
        runAttempts_success g html body i d 0 t h]
  | succ m ih =>
    intro i d
    cases h : trimmedFirstChoice? (g i) with
    | some t =>
      rw [runAttempts_success f html body i d (m + 1) t ((hc i).trans h),
        runAttempts_success g html body i d (m + 1) t h]
    | none =>
      rw [runAttempts_succ_fail f html body i d m ((hc i).trans h),
        runAttempts_succ_fail g html body i d m h, hr i,
        ih (i + 1) (d * (if isRateLimited (g i) then 3 else 2))]

theorem runAttempts_waits_first_two (f : Nat → AttemptResult) (html body : String)
    (i d n : Nat) (h0 : trimmedFirstChoice? (f i) = none)
    (h1 : trimmedFirstChoice? (f (i + 1)) = none)
    (hrl : isRateLimited (f i) = true) (hn : 2 ≤ n) :
    (runAttempts f html body i d n).waits.get? 0 = some d ∧
    (runAttempts f html body i d n).waits.get? 1 = some (d * 3) := by
  obtain ⟨m, rfl⟩ : ∃ m, n = m + 2 := ⟨n - 2, by omega⟩
  rw [runAttempts_succ_fail f html body i d (m + 1) h0, hrl]
  simp only [if_true]
  rw [runAttempts_succ_fail f html body (i + 1) (d * 3) m h1]
  exact ⟨rfl, rfl⟩

/-- C1: when the service fails on every attempt, translateNode returns the
original inner markup concatenated with the failure marker, and exactly
maxRetries + 1 = 6 requests are made (loop indices 0 through maxRetries). -/
theorem c1_exhaustion_marker_and_attempts (svc : ServiceModel)
    (html model lang : String) (hreq : svc.reqOk = true)
    (hfail : ∀ j, trimmedFirstChoice? (svc.attempt j) = none) :
    (translateNode svc html model lang).result = html ++ failureMarker ∧
    (translateNode svc html model lang).attempts = maxRetries + 1 := by
  have h := runAttempts_allFail svc.attempt html
    (encodeRequestBody model lang html) hfail maxRetries 0 baseRetryDelaySeconds
  simpa [translateNode, hreq] using h

theorem c1_witness :
    (translateNode alwaysNetFail "Hi" "m" "German").result = "Hi" ++ failureMarker ∧
    (translateNode alwaysNetFail "Hi" "m" "German").attempts = 6 :=
  c1_exhaustion_marker_and_attempts alwaysNetFail "Hi" "m" "German" rfl
    (fun _ => rfl)

/-- C2 counterexample: the service answers HTTP 429 on the first attempt and
then fails permanently, yet the backoff slept before the second attempt is the
base delay (5), not base times 3: the loop sleeps the current delay first and
multiplies it only afterwards. -/
theorem c2_counterexample :
    (translateNode svc429ThenFail "x" "m" "L").waits.get? 0 =
      some baseRetryDelaySeconds ∧
    baseRetryDelaySeconds ≠ baseRetryDelaySeconds * 3 :=
  ⟨rfl, by decide⟩

/-- C2 (amended): for a run of consecutive non-rate-limit failures with base
delay d, the wait before retry attempt i equals d * 2^(i-1).  A 429 result
changes the multiplier only after the sleep that follows it, so it first
affects the wait two attempts later: after a 429 on the first attempt the
backoff before the second attempt equals the base delay and the backoff before
the third attempt equals base * 3. -/
theorem c2_amended_backoff (svc : ServiceModel) (html model lang : String)
    (hreq : svc.reqOk = true) :
    ((∀ j, trimmedFirstChoice? (svc.attempt j) = none) →
      (∀ j, isRateLimited (svc.attempt j) = false) →
      (translateNode svc html model lang).waits =
        (List.range maxRetries).map (fun k => baseRetryDelaySeconds * 2 ^ k)) ∧
    (trimmedFirstChoice? (svc.attempt 0) = none →
      trimmedFirstChoice? (svc.attempt 1) = none →
      isRateLimited (svc.attempt 0) = true →
      (translateNode svc html model lang).waits.get? 0 =
        some baseRetryDelaySeconds ∧
      (translateNode svc html model lang).waits.get? 1 =
        some (baseRetryDelaySeconds * 3)) := by
  constructor
  · intro hfail hnr
    have h := runAttempts_allFail_waits svc.attempt html
      (encodeRequestBody model lang html) hfail hnr maxRetries 0
      baseRetryDelaySeconds
    simpa [translateNode, hreq] using h
  · intro h0 h1 hrl
    have h := runAttempts_waits_first_two svc.attempt html
      (encodeRequestBody model lang html) 0 baseRetryDelaySeconds maxRetries
      h0 (by simpa using h1) hrl (by decide)
    simpa [translateNode, hreq] using h

theorem c2_witness :
    (translateNode alwaysFail500 "x" "m" "L").waits = [5, 10, 20, 40, 80] ∧
    (translateNode svc429ThenFail "x" "m" "L").waits.get? 1 = some 15 :=
  ⟨((c2_amended_backoff alwaysFail500 "x" "m" "L" rfl).1 (fun _ => rfl)
      (fun _ => rfl)).trans rfl,
   ((c2_amended_backoff svc429ThenFail "x" "m" "L" rfl).2 rfl rfl rfl).2.trans rfl⟩

/-- C3: a unit whose text is empty after trimming is skipped before any
request is built: its inner markup is returned unchanged and zero requests are
made, for every service. -/
theorem c3_blank_unit_untouched (svc : ServiceModel) (model lang : String)
    (u : GoqueryUnit) (hblank : trimSpace u.text = "") :
    processUnit svc model lang u = (u.inner, 0) := by
  simp [processUnit, hblank]

theorem c3_witness :
    processUnit alwaysNetFail "m" "L"
      { text := "   ", inner := "   ", htmlErr := false } = ("   ", 0) :=
  c3_blank_unit_untouched alwaysNetFail "m" "L"
    { text := "   ", inner := "   ", htmlErr := false } (by decide)

/-- C4: when attempt k is the first whose transport succeeded with status 200
and a parsed body holding a non-empty choices list, translateNode returns the
first choice content trimmed and makes exactly k + 1 requests: no attempt
follows a success. -/
theorem c4_success_immediate (svc : ServiceModel) (html model lang : String)
    (k : Nat) (c : String) (cs : List String) (hreq : svc.reqOk = true)
    (hk : k ≤ maxRetries)
    (hfail : ∀ j, j < k → trimmedFirstChoice? (svc.attempt j) = none)
    (hsucc : svc.attempt k = AttemptResult.response 200 (some (c :: cs))) :
    (translateNode svc html model lang).result = trimSpace c ∧
    (translateNode svc html model lang).attempts = k + 1 := by
  have hs : trimmedFirstChoice? (svc.attempt (0 + k)) = some (trimSpace c) := by
    rw [Nat.zero_add, hsucc]; rfl
  have h := runAttempts_firstSuccess svc.attempt html
    (encodeRequestBody model lang html) (trimSpace c) k 0 baseRetryDelaySeconds
    maxRetries hk (fun j hj => by simpa using hfail j hj) hs
  simpa [translateNode, hreq] using h

theorem c4_witness :
    (translateNode failThenSuccessSvc "x" "m" "L").result = trimSpace " Hallo " ∧
    (translateNode failThenSuccessSvc "x" "m" "L").attempts = 2 :=
  c4_success_immediate failThenSuccessSvc "x" "m" "L" 1 " Hallo " [] rfl
    (by decide) (fun j hj => by
      have hj0 : j = 0 := by omega
      rw [hj0]; rfl) rfl

/-- C5 counterexample: when http.NewRequest fails (invalid configured url),
translateNode returns the original text with no failure marker and without any
request having been made — a terminal path whose output is the unmarked
original. -/
theorem c5_counterexample :
    (translateNode badRequestSvc "orig" "m" "L").result = "orig" ∧
    (translateNode badRequestSvc "orig" "m" "L").attempts = 0 ∧
    "orig" ≠ "orig" ++ failureMarker :=
  ⟨rfl, rfl, by decide⟩

/-- C5 (amended): when request construction succeeds, every terminal path of
translateNode yields either the original markup with the failure marker or the
trimmed content of some successful attempt; when request construction fails,
translateNode returns the original text unmarked having made no request. -/
theorem c5_amended_outcomes (svc : ServiceModel) (html model lang : String) :
    (svc.reqOk = true →
      (translateNode svc html model lang).result = html ++ failureMarker ∨
      ∃ j t, trimmedFirstChoice? (svc.attempt j) = some t ∧
        (translateNode svc html model lang).result = t) ∧
    (svc.reqOk = false →
      (translateNode svc html model lang).result = html ∧
      (translateNode svc html model lang).attempts = 0) := by
  constructor
  · intro h
    have hc := runAttempts_result_cases svc.attempt html
      (encodeRequestBody model lang html) maxRetries 0 baseRetryDelaySeconds
    simpa [translateNode, h] using hc
  · intro h
    simp [translateNode, h]

theorem c5_witness :
    (translateNode alwaysFail500 "Hi" "m" "L").result = "Hi" ++ failureMarker ∨
    ∃ j t, trimmedFirstChoice? (alwaysFail500.attempt j) = some t ∧
      (translateNode alwaysFail500 "Hi" "m" "L").result = t :=
  (c5_amended_outcomes alwaysFail500 "Hi" "m" "L").1 rfl

/-- C6: a transport error, any non-200 status, a malformed body, and a 200
response with an empty choices list are all classified as failures, and two
services whose attempts agree on the success classification and on the
rate-limit flag produce identical translateNode traces — only those two
features of an attempt affect the retry decision and the backoff. -/
theorem c6_failure_kinds_uniform :
    trimmedFirstChoice? AttemptResult.transportError = none ∧
    (∀ s choices, s ≠ 200 →
      trimmedFirstChoice? (AttemptResult.response s choices) = none) ∧
    trimmedFirstChoice? (AttemptResult.response 200 none) = none ∧
    trimmedFirstChoice? (AttemptResult.response 200 (some [])) = none ∧
    (∀ f g : ServiceModel, ∀ html model lang : String, f.reqOk = g.reqOk →
      (∀ j, trimmedFirstChoice? (f.attempt j) = trimmedFirstChoice? (g.attempt j)) →
      (∀ j, isRateLimited (f.attempt j) = isRateLimited (g.attempt j)) →
      translateNode f html model lang = translateNode g html model lang) := by
  refine ⟨rfl, ?_, rfl, rfl, ?_⟩
  · intro s choices hs
    simp [trimmedFirstChoice?, hs]
  · intro f g html model lang hok hc hr
    cases hg : g.reqOk with
    | true =>
      have hf : f.reqOk = true := hok.trans hg
      simp only [translateNode, hf, hg, if_true]
      exact runAttempts_congr f.attempt g.attempt html _ hc hr maxRetries 0
        baseRetryDelaySeconds
    | false =>
      have hf : f.reqOk = false := hok.trans hg
      simp [translateNode, hf, hg]

theorem c6_witness :
    trimmedFirstChoice? (AttemptResult.response 500 (some ["x"])) = none ∧
    translateNode alwaysNetFail "u" "m" "L" = translateNode alwaysFail500 "u" "m" "L" :=
  ⟨c6_failure_kinds_uniform.2.1 500 (some ["x"]) (by decide),
   c6_failure_kinds_uniform.2.2.2.2 alwaysNetFail alwaysFail500 "u" "m" "L" rfl
     (fun _ => rfl) (fun _ => rfl)⟩

/-- C7: translateHTML succeeds — returning every unit's final markup — for
every service behavior whenever parsing, serialization and writing succeed, so
unit-level translation failure never halts the run; conversely each of its
errors comes only from the parse, serialize or write collaborator. -/
theorem c7_unit_failure_never_halts (svc : ServiceModel) (model lang : String)
    (doc : DocModel) :
    (∀ units, doc.parsed = some units → doc.serializeOk = true →
      doc.writeOk = true →
      translateHTML svc model lang doc =
        Except.ok (units.map (fun u => (processUnit svc model lang u).1))) ∧
    (∀ e, translateHTML svc model lang doc = Except.error e →
      (e = TranslateError.parseError ∧ doc.parsed = none) ∨
      (e = TranslateError.serializeError ∧ doc.serializeOk = false) ∨
      (e = TranslateError.writeError ∧ doc.writeOk = false)) := by
  constructor
  · intro units hp hs hw
    simp [translateHTML, hp, hs, hw]
  · intro e he
    cases hp : doc.parsed with
    | none =>
      simp only [translateHTML, hp] at he
      exact Or.inl ⟨(Except.error.injEq _ _ ▸ he).symm, rfl⟩
    | some units =>
      cases hs : doc.serializeOk with
      | false =>
        simp only [translateHTML, hp, hs, Bool.false_eq_true, if_false] at he
        exact Or.inr (Or.inl ⟨(Except.error.injEq _ _ ▸ he).symm, rfl⟩)
      | true =>
        cases hw : doc.writeOk with
        | false =>
          simp only [translateHTML, hp, hs, hw, if_true, Bool.false_eq_true,
            if_false] at he
          exact Or.inr (Or.inr ⟨(Except.error.injEq _ _ ▸ he).symm, rfl⟩)
        | true =>
          simp [translateHTML, hp, hs, hw] at he

theorem c7_witness :
    translateHTML alwaysFail500 "m" "L" sampleDoc =
      Except.ok (([{ text := "Hello", inner := "Hello", htmlErr := false }] :
        List GoqueryUnit).map (fun u => (processUnit alwaysFail500 "m" "L" u).1)) :=
  (c7_unit_failure_never_halts alwaysFail500 "m" "L" sampleDoc).1 _ rfl rfl rfl

/-- C8: an archive entry whose lower-cased extension is neither .xhtml nor
.html is copied byte-for-byte, for every service and every document model —
the translation core is never consulted for it. -/
theorem c8_non_markup_copied (svc : ServiceModel) (model lang : String)
    (doc : DocModel) (entry : ZipEntry)
    (hopen : entry.openOk = true) (hcreate : entry.createOk = true)
    (hx : goToLower (fileExt entry.name) ≠ ".xhtml")
    (hh : goToLower (fileExt entry.name) ≠ ".html") :
    processFile svc model lang doc entry true =
      Except.ok (FileOutput.copied entry.bytes) := by
  have hm : isMarkupFile entry.name = false := by
    simp only [isMarkupFile, Bool.or_eq_false_iff, beq_eq_false_iff_ne, ne_eq]
    exact ⟨hx, hh⟩
  simp [processFile, hopen, hcreate, hm]

theorem c8_witness :
    processFile alwaysNetFail "m" "L" sampleDoc
      { name := "images/cover.jpg", bytes := [1, 2, 3], openOk := true,
        createOk := true } true =
      Except.ok (FileOutput.copied [1, 2, 3]) :=
  c8_non_markup_copied alwaysNetFail "m" "L" sampleDoc
    { name := "images/cover.jpg", bytes := [1, 2, 3], openOk := true,
      createOk := true } rfl rfl (by decide) (by decide)

/-- C9: the request body is the one serialization of the payload computed
before the retry loop, and every request made during the call carries exactly
that body. -/
theorem c9_body_serialized_once (svc : ServiceModel) (html model lang : String)
    (hreq : svc.reqOk = true) :
    (translateNode svc html model lang).sentBodies =
      List.replicate (translateNode svc html model lang).attempts
        (encodeRequestBody model lang html) := by
  have h := runAttempts_sentBodies svc.attempt html
    (encodeRequestBody model lang html) maxRetries 0 baseRetryDelaySeconds
  simpa [translateNode, hreq] using h

theorem c9_witness :
    (translateNode alwaysNetFail "a" "m" "L").sentBodies =
      List.replicate (translateNode alwaysNetFail "a" "m" "L").attempts
        (encodeRequestBody "m" "L" "a") :=
  c9_body_serialized_once alwaysNetFail "a" "m" "L" rfl

/-- C10: a successful response whose only choice content is whitespace makes
translateNode return the empty string after one request, and the non-blank
unit's inner markup is replaced by nothing — a successful call can erase the
unit's original content entirely. -/
theorem c10_whitespace_success_erases :
    (translateNode whitespaceSuccessSvc "Hello <em>w</em>" "m" "L").result = "" ∧
    processUnit whitespaceSuccessSvc "m" "L"
      { text := "Hello", inner := "Hello <em>w</em>", htmlErr := false } =
      ("", 1) := by
  exact ⟨by decide, by decide⟩

end EpubTranslator
